import Mathlib

/-!
# Verification of the discord-catchup thread aggregation and cache subsystem

Shallow embedding of the core of `cli_discord_utils.py`, `cli.py` and
`cli_prompt_handler.py`: the thread source aggregator (`fetch_threads`),
the cache store (`_load_threads_from_cache` / `_save_threads_to_cache`),
the thread-selection step (`select_thread`) and the message formatting of
display mode and prompt-file mode.

Machine-level conventions of the embedding:
* Discord snowflake identifiers are `Nat`; Python `str(...)` on them is
  Lean `toString`.
* Points in time are `Nat` seconds since an arbitrary epoch; `datetime`
  values round-trip through the external `isoformat` / `fromisoformat`
  collaborator, modelled below by an executable decimal codec with a
  proven round-trip.
* Fallible remote queries are `Except Unit (List Thread)`; a raised Python
  exception is `Except.error`.
* The JSON cache file content is a list of string-keyed records over a
  small JSON value type `JVal`; a file whose content fails to deserialize
  as such a list is represented by `CacheData.corrupt`.
-/

namespace DiscordCatchup

/-- JSON values that occur in the thread cache file. -/
inductive JVal where
  | null : JVal
  | str (s : String) : JVal
  | bool (b : Bool) : JVal
  | num (n : Nat) : JVal
deriving DecidableEq, Repr

/-- Python truthiness of a JSON-decoded value (`if v:`). -/
def jvTruthy : JVal → Bool
  | .null => false
  | .str s => !(decide (s = ""))
  | .bool b => b
  | .num n => !(decide (n = 0))

/-- A `discord.Thread` as the aggregator sees it: the attributes the core
reads (`id`, `parent_id`, `name`, `archived`, `locked`, `archive_timestamp`)
plus the further attributes named by the data model
(`last_message_id`, `auto_archive_duration`). -/
structure Thread where
  id : Nat
  parent_id : Nat
  name : String
  archived : Bool
  locked : Bool
  archive_timestamp : Option Nat
  last_message_id : Option Nat
  auto_archive_duration : Option Nat
deriving DecidableEq, Repr

/-- Base-10 digits of `n`, least significant first; never empty. -/
def natDigitsRev (n : Nat) : List Nat :=
  if h : n < 10 then [n]
  else (n % 10) :: natDigitsRev (n / 10)
decreasing_by
  exact Nat.div_lt_self (by omega) (by omega)

/-- The character for one decimal digit (48 is the code point of
the character zero). -/
def digitChar (d : Nat) : Char := Char.ofNat (48 + d)

/-- Inverse of `digitChar` on digit characters; `none` elsewhere. -/
def digitVal (c : Char) : Option Nat :=
  if 48 ≤ c.toNat ∧ c.toNat ≤ 57 then some (c.toNat - 48) else none

/-- Render a timestamp, most significant digit first
(model of `datetime.isoformat`). -/
def isoformat (ts : Nat) : String :=
  String.mk ((natDigitsRev ts).reverse.map digitChar)

/-- Parse one character into a running decimal accumulator. -/
def parseStep (acc : Option Nat) (c : Char) : Option Nat :=
  match acc, digitVal c with
  | some a, some d => some (a * 10 + d)
  | _, _ => none

/-- Parse a rendered timestamp (model of `datetime.fromisoformat`):
fails on the empty string and on any non-digit character. -/
def fromisoformat (s : String) : Option Nat :=
  match s.data with
  | [] => none
  | cs => cs.foldl parseStep (some 0)

/-- `m[k] = v` on an insertion-ordered dict represented as an
association list. -/
def pyDictSet {α β : Type} [DecidableEq α] (m : List (α × β)) (k : α) (v : β) :
    List (α × β) :=
  if m.any (fun p => decide (p.1 = k)) then
    m.map (fun p => if p.1 = k then (k, v) else p)
  else m ++ [(k, v)]

/-- `list(d.values())`. -/
def pyDictValues {α β : Type} (m : List (α × β)) : List β := m.map (·.2)

/-- One serialized thread record: a string-keyed JSON object. -/
def SerThread := List (String × JVal)
deriving DecidableEq, Repr

/-- The dict literal built by `_save_threads_to_cache` for one thread. -/
def threadToJson (t : Thread) : SerThread :=
  [("id", .str (toString t.id)),
   ("parent_id", .str (toString t.parent_id)),
   ("name", .str t.name),
   ("archived", .bool t.archived),
   ("locked", .bool t.locked),
   ("archive_timestamp",
     match t.archive_timestamp with
     | some ts => .str (isoformat ts)
     | none => .null)]

/-- `dict.get(k)`: the value under `k`, if the key is present. -/
def jsonGet (ser : SerThread) (k : String) : Option JVal :=
  (List.find? (fun p => decide (p.1 = k)) ser).map (·.2)

/-- The `archive_timestamp` slot of a deserialized cache record: either a
parsed timestamp, Python `None`, or a falsy raw JSON value kept unparsed
(the source only parses when `if archive_timestamp:` is truthy, and maps
any parse/type error to `None`; JSON `null` deserializes to `None`). -/
inductive ATS where
  | none : ATS
  | dt (ts : Nat) : ATS
  | raw (v : JVal) : ATS
deriving DecidableEq, Repr

/-- The per-record `archive_timestamp` conversion in
`_load_threads_from_cache`. -/
def deserArchiveTs (v : Option JVal) : ATS :=
  match v with
  | Option.none => .none
  | some jv =>
    if jvTruthy jv then
      match jv with
      | .str s =>
        match fromisoformat s with
        | some ts => .dt ts
        | Option.none => .none
      | _ => .none
    else if jv = .null then .none else .raw jv

/-- The `SimpleNamespace` built per record by `_load_threads_from_cache`:
raw JSON values for `id`, `parent_id`, `name` (absent key gives `None`),
defaulted `archived` / `locked`, converted `archive_timestamp`. -/
structure LoadedThread where
  id : Option JVal
  parent_id : Option JVal
  name : Option JVal
  archived : JVal
  locked : JVal
  archive_timestamp : ATS
deriving DecidableEq, Repr

/-- One record's deserialization in `_load_threads_from_cache`. -/
def deserThread (ser : SerThread) : LoadedThread :=
  { id := jsonGet ser "id"
    parent_id := jsonGet ser "parent_id"
    name := jsonGet ser "name"
    archived := (jsonGet ser "archived").getD (.bool false)
    locked := (jsonGet ser "locked").getD (.bool false)
    archive_timestamp := deserArchiveTs (jsonGet ser "archive_timestamp") }

/-- Content of one cache file: a well-formed list of serialized records,
or anything that makes `json.load` / the record conversion raise. -/
inductive CacheData where
  | good (records : List SerThread) : CacheData
  | corrupt : CacheData
deriving DecidableEq, Repr

/-- One `.cache/threads_cache_<channel_id>.json` file. -/
structure CacheFile where
  mtime : Nat
  data : CacheData
deriving DecidableEq, Repr

/-- The filesystem as the cache store sees it: the per-channel cache
files, plus whether `os.makedirs(".cache")` and opening/writing the cache
file would raise. -/
structure FSEnv where
  cache : List (Nat × CacheFile)
  mkdirFails : Bool
  writeFails : Bool
deriving DecidableEq, Repr

/-- Look up the cache file for a channel. -/
def FSEnv.find (fs : FSEnv) (channel_id : Nat) : Option CacheFile :=
  (List.find? (fun p => decide (p.1 = channel_id)) fs.cache).map (·.2)

/-- `_load_threads_from_cache`: returns `[]` when the file is absent,
older than 3600 seconds, or unreadable; otherwise the deserialized
records. Total — no error is ever propagated. -/
def loadThreadsFromCache (fs : FSEnv) (now : Nat) (channel_id : Nat) :
    List LoadedThread :=
  match fs.find channel_id with
  | Option.none => []
  | some file =>
    if now - file.mtime > 3600 then []
    else
      match file.data with
      | .corrupt => []
      | .good records => records.map deserThread

/-- `_save_threads_to_cache`: `os.makedirs` sits outside the
`try`/`except`, so its failure raises (`Except.error`); serialization and
file-write failures inside the `try` are logged and swallowed, leaving the
filesystem unchanged. -/
def saveThreadsToCache (fs : FSEnv) (now : Nat) (channel_id : Nat)
    (threads : List Thread) : Except Unit FSEnv :=
  if fs.mkdirFails then .error ()
  else if fs.writeFails then .ok fs
  else .ok { fs with
    cache := pyDictSet fs.cache channel_id
      ⟨now, .good (threads.map threadToJson)⟩ }

/-- The three remote queries as the aggregator issues them:
`guild.active_threads()` (guild-wide), `channel.archived_threads(limit=100)`
and `channel.archived_threads(private=True, limit=100)`. Each may raise. -/
structure RemoteEnv where
  active : Except Unit (List Thread)
  archivedPublic : Except Unit (List Thread)
  archivedPrivate : Except Unit (List Thread)
deriving Repr

/-- A query failure is logged and treated as an empty result. -/
def exceptToEmpty (q : Except Unit (List Thread)) : List Thread :=
  match q with
  | .ok l => l
  | .error _ => []

/-- Replace a query's outcome by the successful query returning the
same contribution (an error becomes an empty success). -/
def neutralizeQuery (q : Except Unit (List Thread)) : Except Unit (List Thread) :=
  .ok (exceptToEmpty q)

/-- `unique_threads = {}; for t in threads: unique_threads[str(t.id)] = t;
list(unique_threads.values())`. -/
def dedupById (ts : List Thread) : List Thread :=
  pyDictValues (ts.foldl (fun m t => pyDictSet m (toString t.id) t) [])

/-- A thread held by the aggregator's result: fetched from a remote query,
or deserialized from the cache. -/
inductive FetchedThread where
  | remote (t : Thread) : FetchedThread
  | cached (t : LoadedThread) : FetchedThread
deriving DecidableEq, Repr

/-- Observable outcome of one `fetch_threads` call: its return value, the
filesystem afterwards, and how many remote queries and cache reads it
performed. -/
structure FetchOutcome where
  threads : List FetchedThread
  fs : FSEnv
  remoteQueries : Nat
  cacheLoads : Nat
deriving DecidableEq, Repr

/-- The remote-query path of `fetch_threads` (taken on cache miss or with
caching disabled): three independently fault-tolerant queries, active
results filtered to the requested channel, deduplication by `str(id)`;
the age filter on `max_age_days` is commented out in the source and never
applied; the result is saved to the cache only when `use_cache` is set. -/
def fetchThreadsRemote (env : RemoteEnv) (fs : FSEnv) (now : Nat)
    (channel_id : Nat) (use_cache : Bool) (cacheLoads : Nat) :
    Except Unit FetchOutcome :=
  let ts1 := (exceptToEmpty env.active).filter (fun t => decide (t.parent_id = channel_id))
  let ts2 := ts1 ++ exceptToEmpty env.archivedPublic
  let ts3 := ts2 ++ exceptToEmpty env.archivedPrivate
  let uniq := dedupById ts3
  if use_cache then
    match saveThreadsToCache fs now channel_id uniq with
    | .ok fs2 => .ok ⟨uniq.map .remote, fs2, 3, cacheLoads⟩
    | .error e => .error e
  else
    .ok ⟨uniq.map .remote, fs, 3, cacheLoads⟩

/-- `fetch_threads(channel, use_cache, max_age_days)`: with `use_cache`,
a non-empty cache load is returned as-is (no remote query, no save); an
empty load falls through to the remote path. -/
def fetch_threads (env : RemoteEnv) (fs : FSEnv) (now : Nat)
    (channel_id : Nat) (use_cache : Bool) (max_age_days : Option Nat) :
    Except Unit FetchOutcome :=
  let _ := max_age_days
  if use_cache then
    let cached := loadThreadsFromCache fs now channel_id
    if cached.isEmpty then
      fetchThreadsRemote env fs now channel_id true 1
    else
      .ok ⟨cached.map .cached, fs, 0, 1⟩
  else
    fetchThreadsRemote env fs now channel_id false 0

/-- Accumulated effects: filesystem state, remote queries issued,
cache reads performed. -/
structure Effects where
  fs : FSEnv
  remoteQueries : Nat
  cacheLoads : Nat
deriving DecidableEq, Repr

/-- One loop iteration of `select_channel(channel_list, use_cache)`: for
the channel `cid`, either one cache read (when `use_cache`) or a
`fetch_threads(channel, use_cache=use_cache)` call for the thread
count. -/
def selectChannelStep (use_cache : Bool) (envOf : Nat → RemoteEnv)
    (now : Nat) (acc : Effects) (cid : Nat) : Except Unit Effects :=
  if use_cache then
    let _ := loadThreadsFromCache acc.fs now cid
    .ok ⟨acc.fs, acc.remoteQueries, acc.cacheLoads + 1⟩
  else
    match fetch_threads (envOf cid) acc.fs now cid use_cache Option.none with
    | .ok o => .ok ⟨o.fs, acc.remoteQueries + o.remoteQueries,
        acc.cacheLoads + o.cacheLoads⟩
    | .error e => .error e

/-- The side effects of `select_channel(channel_list, use_cache)`, with
the per-channel remote environments given by `envOf`. -/
def selectChannelEffects (channels : List Nat) (use_cache : Bool)
    (envOf : Nat → RemoteEnv) (fs : FSEnv) (now : Nat) :
    Except Unit Effects :=
  channels.foldlM (selectChannelStep use_cache envOf now) ⟨fs, 0, 0⟩

/-- Observable outcome of the `run()` coroutine of `thread_catchup` up to
and including the thread fetch for the selected channel. -/
structure CatchupOutcome where
  threads : List FetchedThread
  fs : FSEnv
  remoteQueries : Nat
  cacheLoads : Nat
deriving DecidableEq, Repr

/-- The cache-relevant dataflow of `thread_catchup`: line 169 merges the
`--use-cache` flag with the `use_threads_cache` setting, the early return
fires on an empty channel list, and line 194 inside `run()` reassigns
`use_cache = False` before `select_channel` (line 197) and
`fetch_threads` (line 206) run. `pick` is the channel the user selects. -/
def thread_catchup_run (cli_use_cache env_use_threads_cache : Bool)
    (max_age : Option Nat) (channels : List Nat) (pick : Nat)
    (envOf : Nat → RemoteEnv) (fs : FSEnv) (now : Nat) :
    Except Unit CatchupOutcome :=
  let use_cache := cli_use_cache || env_use_threads_cache
  if channels.isEmpty then
    .ok ⟨[], fs, 0, 0⟩
  else
    let use_cache := false
    match selectChannelEffects channels use_cache envOf fs now with
    | .error e => .error e
    | .ok eff =>
      let selected := channels.getD pick 0
      match fetch_threads (envOf selected) eff.fs now selected use_cache max_age with
      | .error e => .error e
      | .ok o =>
        .ok ⟨o.threads, o.fs, eff.remoteQueries + o.remoteQueries,
          eff.cacheLoads + o.cacheLoads⟩

/-- `select_thread(threads)`: on an empty list it prints an informational
message and returns `None` without showing the selection prompt; otherwise
the prompt offers "No thread (main channel)" first and then the threads,
and the user's pick (`0` = main channel, `i + 1` = thread `i`) is mapped
back. The `Bool` records whether the prompt was shown. -/
def select_thread (threads : List FetchedThread) (pick : Nat) :
    Option FetchedThread × Bool :=
  if threads.isEmpty then
    (Option.none, false)
  else if pick = 0 then
    (Option.none, true)
  else
    (threads.get? (pick - 1), true)

/-- The final retrieval target. -/
inductive Target where
  | thread (t : FetchedThread) : Target
  | channel (channel_id : Nat) : Target
deriving DecidableEq, Repr

/-- `target_channel = selected_thread if selected_thread else
selected_channel` (cli.py line 213). -/
def resolve_target (selected_thread : Option FetchedThread)
    (channel_id : Nat) : Target :=
  match selected_thread with
  | some t => .thread t
  | Option.none => .channel channel_id

/-- One fetched message, as both modes format it. `created_at` is the
already-rendered `strftime` timestamp. -/
structure Message where
  created_at : String
  author : String
  content : String
deriving DecidableEq, Repr

/-- `f"[{timestamp}] {message.author.name}: {message.content}"` — the
line format shared by both modes. -/
def format_message (m : Message) : String :=
  "[" ++ m.created_at ++ "] " ++ m.author ++ ": " ++ m.content

/-- The message lines `fetch_and_display_messages` echoes: one per
message, in the order the remote source returned them (newest first) —
no reversal. -/
def display_message_lines (msgs : List Message) : List String :=
  msgs.map format_message

/-- The `message_texts` list `fetch_and_create_prompt_file` appends to the
prompt template: built by iterating `reversed(messages)`, i.e. oldest
first. -/
def prompt_message_texts (msgs : List Message) : List String :=
  msgs.reverse.map format_message

/-- Keys of an association list have no duplicates. -/
def nodupKeys {α β : Type} [DecidableEq α] (m : List (α × β)) : Prop := (m.map (·.1)).Nodup

/-- Every entry's key is the key of its value. -/
def goodAssoc {α β : Type} [DecidableEq α] (kf : β → α) (m : List (α × β)) : Prop :=
  ∀ p ∈ m, p.1 = kf p.2

/-- Folding a list into a dict keyed by `kf`, as the deduplication loop
does. -/
def keyFold {α β : Type} [DecidableEq α] (kf : β → α) (ts : List β) : List (α × β) :=
  ts.foldl (fun m t => pyDictSet m (kf t) t) []

/-- The record `_load_threads_from_cache` reconstructs from what
`_save_threads_to_cache` wrote for a thread `t`: identifiers come back as
strings, and only the six persisted attributes survive. -/
def loadedOf (t : Thread) : LoadedThread :=
  { id := some (.str (toString t.id))
    parent_id := some (.str (toString t.parent_id))
    name := some (.str t.name)
    archived := .bool t.archived
    locked := .bool t.locked
    archive_timestamp :=
      match t.archive_timestamp with
      | some ts => .dt ts
      | Option.none => .none }

/-- The merged list the remote path deduplicates: guild-wide active
threads filtered to the channel, then archived public, then archived
private. -/
def mergedOf (env : RemoteEnv) (channel_id : Nat) : List Thread :=
  ((exceptToEmpty env.active).filter (fun t => decide (t.parent_id = channel_id))
      ++ exceptToEmpty env.archivedPublic)
    ++ exceptToEmpty env.archivedPrivate

/-- An empty, healthy filesystem: no cache files, directory creation and
writes succeed. -/
def fsEmpty : FSEnv := ⟨[], false, false⟩

/-- Thread id 7 as the active query reports it. -/
def tActive : Thread :=
  ⟨7, 1, "from-active", false, false, Option.none, Option.none, Option.none⟩

/-- The same thread id 7 as the archived-public query reports it. -/
def tArchived : Thread :=
  ⟨7, 1, "from-archived-public", true, false, some 100, Option.none, Option.none⟩

/-- Remote state where id 7 appears in both the active and the
archived-public query. -/
def envDup : RemoteEnv := ⟨.ok [tActive], .ok [tArchived], .ok []⟩

/-- A thread archived long ago (timestamp 100 seconds after epoch). -/
def tOld : Thread :=
  ⟨3, 1, "ten-days-old", true, false, some 100, Option.none, Option.none⟩

/-- Remote state containing only the long-archived thread. -/
def envOld : RemoteEnv := ⟨.ok [], .ok [tOld], .ok []⟩

/-- A thread whose cache-only attributes are populated. -/
def tFull : Thread := ⟨1, 2, "general", false, false, Option.none, some 5, some 60⟩

/-- A filesystem on which the cache directory cannot be created. -/
def fsNoMkdir : FSEnv := ⟨[], true, false⟩

/-- Remote state in which the archived-private query raises. -/
def envPrivFails : RemoteEnv := ⟨.ok [], .ok [], .error ()⟩

/-- What a thread of a first call's result looks like when the second
call reads it back from the cache. -/
def cachedImage : FetchedThread → FetchedThread
  | .remote t => .cached (loadedOf t)
  | .cached l => .cached l

/-- Remote state with only empty successful queries. -/
def env0 : RemoteEnv := ⟨.ok [], .ok [], .ok []⟩

/-- The filesystem after caching an empty thread list for channel 1 at
time 1000. -/
def c4fs1 : FSEnv := ⟨[(1, CacheFile.mk 1000 (CacheData.good []))], false, false⟩

/-- A plain active thread with id 7 under channel 1. -/
def tB : Thread := ⟨7, 1, "thread-seven", false, false, Option.none, Option.none, Option.none⟩

/-- Remote state in which the active query returns `tB`. -/
def envB : RemoteEnv := ⟨.ok [tB], .ok [], .ok []⟩

/-- The filesystem after caching `[tB]` for channel 1 at time 1000. -/
def c4fsB : FSEnv := ⟨[(1, CacheFile.mk 1000 (CacheData.good [threadToJson tB]))], false, false⟩

/-! ## Theorems -/

theorem digitVal_digitChar {d : Nat} (h : d < 10) :
    digitVal (digitChar d) = some d := by
  interval_cases d <;> rfl

theorem natDigitsRev_lt (n : Nat) : ∀ d ∈ natDigitsRev n, d < 10 := by
  induction n using Nat.strong_induction_on with
  | _ n ih =>
    rw [natDigitsRev]
    split
    · intro d hd
      simp only [List.mem_singleton] at hd
      omega
    · intro d hd
      rcases List.mem_cons.mp hd with h | h
      · omega
      · exact ih (n / 10) (Nat.div_lt_self (by omega) (by omega)) d h

theorem natDigitsRev_ne_nil (n : Nat) : natDigitsRev n ≠ [] := by
  rw [natDigitsRev]
  split <;> simp

theorem foldr_natDigitsRev (n : Nat) :
    (natDigitsRev n).foldr (fun d acc => acc * 10 + d) 0 = n := by
  induction n using Nat.strong_induction_on with
  | _ n ih =>
    rw [natDigitsRev]
    split
    · simp
    · rw [List.foldr_cons, ih (n / 10) (Nat.div_lt_self (by omega) (by omega))]
      omega

theorem foldl_parseStep_digits (ds : List Nat) (hds : ∀ d ∈ ds, d < 10) (a : Nat) :
    (ds.map digitChar).foldl parseStep (some a) =
      some (ds.foldl (fun acc d => acc * 10 + d) a) := by
  induction ds generalizing a with
  | nil => rfl
  | cons d ds ih =>
    have hd : d < 10 := hds d (List.mem_cons_self d ds)
    have hds' : ∀ x ∈ ds, x < 10 := fun x hx => hds x (List.mem_cons_of_mem d hx)
    simp only [List.map_cons, List.foldl_cons, parseStep, digitVal_digitChar hd]
    exact ih hds' (a * 10 + d)

theorem fromisoformat_mk (l : List Char) (h : l ≠ []) :
    fromisoformat (String.mk l) = l.foldl parseStep (some 0) := by
  cases l with
  | nil => exact absurd rfl h
  | cons c cs => rfl

/-- The timestamp codec round-trips. -/
theorem fromisoformat_isoformat (ts : Nat) :
    fromisoformat (isoformat ts) = some ts := by
  have hne : (natDigitsRev ts).reverse.map digitChar ≠ [] := by
    simp [natDigitsRev_ne_nil ts]
  have hfold : ((natDigitsRev ts).reverse.map digitChar).foldl parseStep (some 0) =
      some ((natDigitsRev ts).reverse.foldl (fun acc d => acc * 10 + d) 0) := by
    apply foldl_parseStep_digits
    intro d hd
    exact natDigitsRev_lt ts d (List.mem_reverse.mp hd)
  rw [isoformat, fromisoformat_mk _ hne, hfold, List.foldl_reverse, foldr_natDigitsRev]

/-- A rendered timestamp is never the empty string. -/
theorem isoformat_ne_empty (ts : Nat) : isoformat ts ≠ "" := by
  intro h
  have h1 := fromisoformat_isoformat ts
  rw [h] at h1
  exact Option.noConfusion ((rfl : fromisoformat "" = none) ▸ h1)

theorem keyFold_concat {α β : Type} [DecidableEq α] (kf : β → α) (ts : List β) (t : β) :
    keyFold kf (ts ++ [t]) = pyDictSet (keyFold kf ts) (kf t) t := by
  simp [keyFold, List.foldl_append]

theorem filter_mapReplace_ne {α β : Type} [DecidableEq α] (m : List (α × β)) (k : α) (v : β) (X : α)
    (h : k ≠ X) :
    (m.map (fun p => if p.1 = k then (k, v) else p)).filter
        (fun p => decide (p.1 = X)) =
      m.filter (fun p => decide (p.1 = X)) := by
  induction m with
  | nil => rfl
  | cons hd tl ih =>
    simp only [List.map_cons, List.filter_cons]
    by_cases hk : hd.1 = k
    · have hX : ¬ hd.1 = X := by rw [hk]; exact h
      rw [if_pos hk]
      simp only [decide_eq_true_eq]
      rw [if_neg h, if_neg hX]
      exact ih
    · rw [if_neg hk]
      simp only [decide_eq_true_eq]
      by_cases hX : hd.1 = X
      · rw [if_pos hX, if_pos hX, ih]
      · rw [if_neg hX, if_neg hX, ih]

theorem filter_mapReplace_absent {α β : Type} [DecidableEq α] (m : List (α × β)) (k : α) (v : β)
    (h : ∀ p ∈ m, p.1 ≠ k) :
    (m.map (fun p => if p.1 = k then (k, v) else p)).filter
        (fun p => decide (p.1 = k)) = [] := by
  induction m with
  | nil => rfl
  | cons hd tl ih =>
    have hhd : hd.1 ≠ k := h hd (List.mem_cons_self hd tl)
    have htl : ∀ p ∈ tl, p.1 ≠ k := fun p hp => h p (List.mem_cons_of_mem hd hp)
    simp [hhd, ih htl]

theorem filter_pyDictSet_ne {α β : Type} [DecidableEq α] (m : List (α × β)) (k : α) (v : β) (X : α)
    (h : k ≠ X) :
    (pyDictSet m k v).filter (fun p => decide (p.1 = X)) =
      m.filter (fun p => decide (p.1 = X)) := by
  unfold pyDictSet
  split
  · exact filter_mapReplace_ne m k v X h
  · rw [List.filter_append]
    simp [h]

theorem not_any_key {α β : Type} [DecidableEq α] (m : List (α × β)) (k : α)
    (h : ¬ m.any (fun p => decide (p.1 = k)) = true) :
    ∀ p ∈ m, p.1 ≠ k := by
  intro p hp hpk
  exact h (List.any_eq_true.mpr ⟨p, hp, by simpa using hpk⟩)

theorem filter_mapReplace_self {α β : Type} [DecidableEq α] (m : List (α × β)) (k : α) (v : β)
    (hnd : nodupKeys m) (hany : m.any (fun p => decide (p.1 = k)) = true) :
    (m.map (fun p => if p.1 = k then (k, v) else p)).filter
        (fun p => decide (p.1 = k)) = [(k, v)] := by
  induction m with
  | nil => simp at hany
  | cons hd tl ih =>
    have hnd' : nodupKeys tl := (List.nodup_cons.mp hnd).2
    by_cases hk : hd.1 = k
    · have habs : ∀ p ∈ tl, p.1 ≠ k := by
        intro p hp hpk
        have hmem : k ∈ tl.map (·.1) := by
          rw [← hpk]
          exact List.mem_map_of_mem (·.1) hp
        have hnotmem : hd.1 ∉ tl.map (·.1) := (List.nodup_cons.mp hnd).1
        rw [hk] at hnotmem
        exact hnotmem hmem
      simp [hk, filter_mapReplace_absent tl k v habs]
    · have hany' : tl.any (fun p => decide (p.1 = k)) = true := by
        rcases List.any_eq_true.mp hany with ⟨p, hp, hpk⟩
        rcases List.mem_cons.mp hp with rfl | hp'
        · exact absurd (by simpa using hpk) hk
        · exact List.any_eq_true.mpr ⟨p, hp', hpk⟩
      simp [hk, ih hnd' hany']

theorem filter_pyDictSet_self {α β : Type} [DecidableEq α] (m : List (α × β)) (k : α) (v : β)
    (hnd : nodupKeys m) :
    (pyDictSet m k v).filter (fun p => decide (p.1 = k)) = [(k, v)] := by
  unfold pyDictSet
  split
  · exact filter_mapReplace_self m k v hnd (by assumption)
  · next hany =>
    rw [List.filter_append]
    have habs : ∀ p ∈ m, p.1 ≠ k := not_any_key m k hany
    have hnil : m.filter (fun p => decide (p.1 = k)) = [] := by
      apply List.filter_eq_nil_iff.mpr
      intro p hp
      simpa using habs p hp
    simp [hnil]

theorem nodupKeys_pyDictSet {α β : Type} [DecidableEq α] (m : List (α × β)) (k : α) (v : β)
    (hnd : nodupKeys m) : nodupKeys (pyDictSet m k v) := by
  unfold pyDictSet
  split
  · unfold nodupKeys
    have hmap : (m.map (fun p => if p.1 = k then (k, v) else p)).map (·.1) =
        m.map (·.1) := by
      rw [List.map_map]
      apply List.map_congr_left
      intro p _
      by_cases hp : p.1 = k <;> simp [hp]
    rw [hmap]
    exact hnd
  · next hany =>
    unfold nodupKeys
    have habs := not_any_key m k hany
    rw [List.map_append]
    apply List.Nodup.append hnd (by simp)
    intro x hx hx'
    simp only [List.map_cons, List.map_nil, List.mem_singleton] at hx'
    rcases List.mem_map.mp hx with ⟨p, hp, rfl⟩
    exact habs p hp hx'

theorem goodAssoc_pyDictSet {α β : Type} [DecidableEq α] (kf : β → α) (m : List (α × β)) (t : β)
    (hg : goodAssoc kf m) : goodAssoc kf (pyDictSet m (kf t) t) := by
  unfold pyDictSet
  split
  · intro p hp
    rcases List.mem_map.mp hp with ⟨q, hq, rfl⟩
    by_cases hqk : q.1 = kf t
    · rw [if_pos hqk]
    · rw [if_neg hqk]
      exact hg q hq
  · intro p hp
    rcases List.mem_append.mp hp with hp' | hp'
    · exact hg p hp'
    · simp only [List.mem_singleton] at hp'
      subst hp'
      rfl

theorem keyFold_nodupKeys {α β : Type} [DecidableEq α] (kf : β → α) (ts : List β) :
    nodupKeys (keyFold kf ts) := by
  induction ts using List.reverseRecOn with
  | nil => simp [keyFold, nodupKeys]
  | append_singleton ts t ih =>
    rw [keyFold_concat]
    exact nodupKeys_pyDictSet _ _ _ ih

theorem keyFold_goodAssoc {α β : Type} [DecidableEq α] (kf : β → α) (ts : List β) :
    goodAssoc kf (keyFold kf ts) := by
  induction ts using List.reverseRecOn with
  | nil => intro p hp; simp [keyFold] at hp
  | append_singleton ts t ih =>
    rw [keyFold_concat]
    exact goodAssoc_pyDictSet kf _ t ih

/-- The dict built by the deduplication loop holds, under each key, the
last element of the input with that key. -/
theorem keyFold_filter {α β : Type} [DecidableEq α] (kf : β → α) (ts : List β) (X : α) :
    (keyFold kf ts).filter (fun p => decide (p.1 = X)) =
      ((ts.filter (fun t => decide (kf t = X))).getLast?.map
        (fun t => (kf t, t))).toList := by
  induction ts using List.reverseRecOn with
  | nil => simp [keyFold]
  | append_singleton ts t ih =>
    rw [keyFold_concat]
    by_cases hX : kf t = X
    · subst hX
      rw [filter_pyDictSet_self _ _ _ (keyFold_nodupKeys kf ts)]
      rw [List.filter_append]
      simp [List.getLast?_concat]
    · rw [filter_pyDictSet_ne _ _ _ _ hX, ih, List.filter_append]
      simp [hX]

theorem filter_pyDictValues {α β : Type} [DecidableEq α] (kf : β → α) (m : List (α × β)) (X : α)
    (hg : goodAssoc kf m) :
    (pyDictValues m).filter (fun b => decide (kf b = X)) =
      pyDictValues (m.filter (fun p => decide (p.1 = X))) := by
  induction m with
  | nil => rfl
  | cons hd tl ih =>
    have hhd : hd.1 = kf hd.2 := hg hd (List.mem_cons_self hd tl)
    have htl : goodAssoc kf tl := fun p hp => hg p (List.mem_cons_of_mem hd hp)
    by_cases hX : kf hd.2 = X
    · have h2 : hd.1 = X := by rw [hhd]; exact hX
      simp only [pyDictValues, List.map_cons, List.filter_cons,
        decide_eq_true_eq, if_pos hX, if_pos h2]
      exact congrArg (List.cons hd.2) (ih htl)
    · have h2 : ¬ hd.1 = X := by rw [hhd]; exact hX
      simp only [pyDictValues, List.map_cons, List.filter_cons,
        decide_eq_true_eq, if_neg hX, if_neg h2]
      exact ih htl

/-- Deduplication keeps, for every identifier key `X`, exactly the last
input thread whose `str(id)` equals `X` (Python dict overwrite: later
duplicates replace earlier ones). -/
theorem dedupById_filter (ts : List Thread) (X : String) :
    (dedupById ts).filter (fun t => decide (toString t.id = X)) =
      ((ts.filter (fun t => decide (toString t.id = X))).getLast?).toList := by
  have hfold : dedupById ts =
      pyDictValues (keyFold (fun t : Thread => toString t.id) ts) := rfl
  rw [hfold,
    filter_pyDictValues _ _ _ (keyFold_goodAssoc (fun t : Thread => toString t.id) ts),
    keyFold_filter]
  generalize (ts.filter (fun t => decide (toString t.id = X))).getLast? = o
  cases o <;> rfl

theorem deserArchiveTs_isoformat (ts : Nat) :
    deserArchiveTs (some (.str (isoformat ts))) = ATS.dt ts := by
  have h : jvTruthy (.str (isoformat ts)) = true := by
    simp [jvTruthy, isoformat_ne_empty ts]
  simp [deserArchiveTs, h, fromisoformat_isoformat]

/-- Serialization followed by deserialization yields exactly the
projected record. -/
theorem deserThread_threadToJson (t : Thread) :
    deserThread (threadToJson t) = loadedOf t := by
  obtain ⟨tid, pid, nm, arch, lock, ats, lmi, aad⟩ := t
  cases ats with
  | none => rfl
  | some ts =>
    show LoadedThread.mk (some (.str (toString tid))) (some (.str (toString pid)))
        (some (.str nm)) (.bool arch) (.bool lock)
        (deserArchiveTs (some (.str (isoformat ts)))) =
      LoadedThread.mk (some (.str (toString tid))) (some (.str (toString pid)))
        (some (.str nm)) (.bool arch) (.bool lock) (ATS.dt ts)
    rw [deserArchiveTs_isoformat ts]

theorem find?_mapReplace_self {α β : Type} [DecidableEq α]
    (m : List (α × β)) (k : α) (v : β)
    (hany : m.any (fun p => decide (p.1 = k)) = true) :
    (m.map (fun p => if p.1 = k then (k, v) else p)).find?
      (fun p => decide (p.1 = k)) = some (k, v) := by
  induction m with
  | nil => simp at hany
  | cons hd tl ih =>
    by_cases hk : hd.1 = k
    · simp [List.find?_cons, hk]
    · have hany' : tl.any (fun p => decide (p.1 = k)) = true := by
        rcases List.any_eq_true.mp hany with ⟨p, hp, hpk⟩
        rcases List.mem_cons.mp hp with rfl | hp'
        · exact absurd (by simpa using hpk) hk
        · exact List.any_eq_true.mpr ⟨p, hp', hpk⟩
      simp only [List.map_cons, List.find?_cons, if_neg hk]
      have hkd : decide (hd.1 = k) = false := by simpa using hk
      rw [hkd]
      exact ih hany'

/-- Setting a key in a Python dict makes lookup of that key find the new
value. -/
theorem find?_pyDictSet_self {α β : Type} [DecidableEq α]
    (m : List (α × β)) (k : α) (v : β) :
    (pyDictSet m k v).find? (fun p => decide (p.1 = k)) = some (k, v) := by
  unfold pyDictSet
  split
  · exact find?_mapReplace_self m k v (by assumption)
  · next hany =>
    have habs := not_any_key m k hany
    rw [List.find?_append]
    have hnone : m.find? (fun p => decide (p.1 = k)) = Option.none := by
      apply List.find?_eq_none.mpr
      intro p hp
      simpa using habs p hp
    rw [hnone]
    simp

/-- With caching disabled, `fetch_threads` performs the three queries,
deduplicates, touches no cache, and cannot fail. -/
theorem fetch_threads_no_cache (env : RemoteEnv) (fs : FSEnv) (now cid : Nat)
    (mad : Option Nat) :
    fetch_threads env fs now cid false mad =
      .ok ⟨(dedupById (mergedOf env cid)).map .remote, fs, 3, 0⟩ := rfl

/-- The remote path with caching on is the save step applied to the
deduplicated merge. -/
theorem fetchThreadsRemote_eq_save (env : RemoteEnv) (fs : FSEnv)
    (now cid n : Nat) :
    fetchThreadsRemote env fs now cid true n =
      match saveThreadsToCache fs now cid (dedupById (mergedOf env cid)) with
      | .ok fs2 => .ok ⟨(dedupById (mergedOf env cid)).map .remote, fs2, 3, n⟩
      | .error e => .error e := rfl

/-- When the cache directory can be created, `Save` succeeds. -/
theorem saveThreadsToCache_ok (fs : FSEnv) (now cid : Nat) (ts : List Thread)
    (h : fs.mkdirFails = false) :
    ∃ fs', saveThreadsToCache fs now cid ts = .ok fs' := by
  cases hw : fs.writeFails with
  | true => exact ⟨fs, by simp [saveThreadsToCache, h, hw]⟩
  | false =>
    exact ⟨{ fs with cache := pyDictSet fs.cache cid (CacheFile.mk now (CacheData.good (ts.map threadToJson))) },
      by simp [saveThreadsToCache, h, hw]⟩

/-- With caching on and a cache miss, `fetch_threads` is the remote path
(after one cache read). -/
theorem fetch_threads_cache_miss (env : RemoteEnv) (fs : FSEnv)
    (now cid : Nat) (mad : Option Nat)
    (hmiss : loadThreadsFromCache fs now cid = []) :
    fetch_threads env fs now cid true mad =
      fetchThreadsRemote env fs now cid true 1 := by
  simp [fetch_threads, hmiss]

/-- With caching on and a non-empty cache load, `fetch_threads` returns
the loaded records: no remote query, no write. -/
theorem fetch_threads_cache_hit (env : RemoteEnv) (fs : FSEnv)
    (now cid : Nat) (mad : Option Nat) (l : List LoadedThread)
    (hcached : loadThreadsFromCache fs now cid = l) (hne : l ≠ []) :
    fetch_threads env fs now cid true mad = .ok ⟨l.map .cached, fs, 0, 1⟩ := by
  have hempty : l.isEmpty = false := by
    cases l with
    | nil => exact absurd rfl hne
    | cons hd tl => rfl
  simp [fetch_threads, hcached, hempty]

/-- A successful save is the dict update of the filesystem. -/
theorem saveThreadsToCache_eq (fs : FSEnv) (now cid : Nat) (R : List Thread)
    (hmk : fs.mkdirFails = false) (hwr : fs.writeFails = false) :
    saveThreadsToCache fs now cid R =
      .ok { fs with cache := pyDictSet fs.cache cid (CacheFile.mk now (CacheData.good (R.map threadToJson))) } := by
  simp [saveThreadsToCache, hmk, hwr]

/-- Loading within the freshness window after a successful save
reconstructs exactly the round-trip image of the saved threads. -/
theorem loadThreadsFromCache_after_save (fs fs2 : FSEnv)
    (now1 now2 cid : Nat) (R : List Thread)
    (hmk : fs.mkdirFails = false) (hwr : fs.writeFails = false)
    (hsave : saveThreadsToCache fs now1 cid R = .ok fs2)
    (hfresh : now2 - now1 ≤ 3600) :
    loadThreadsFromCache fs2 now2 cid = R.map loadedOf := by
  rw [saveThreadsToCache_eq fs now1 cid R hmk hwr] at hsave
  have hfs2 : { fs with cache := pyDictSet fs.cache cid (CacheFile.mk now1 (CacheData.good (R.map threadToJson))) } = fs2 := by
    exact Except.ok.inj hsave
  subst hfs2
  have hfind : FSEnv.find { fs with cache := pyDictSet fs.cache cid (CacheFile.mk now1 (CacheData.good (R.map threadToJson))) } cid =
      some (CacheFile.mk now1 (CacheData.good (R.map threadToJson))) := by
    unfold FSEnv.find
    rw [find?_pyDictSet_self]
    rfl
  unfold loadThreadsFromCache
  rw [hfind]
  show (if now2 - now1 > 3600 then []
    else (R.map threadToJson).map deserThread) = R.map loadedOf
  rw [if_neg (by omega), List.map_map]
  exact List.map_congr_left (fun t _ => deserThread_threadToJson t)

/-! ## Query fault tolerance -/

theorem exceptToEmpty_neutralizeQuery (q : Except Unit (List Thread)) :
    exceptToEmpty (neutralizeQuery q) = exceptToEmpty q := by
  cases q <;> rfl

theorem mergedOf_neutralize (env : RemoteEnv) (cid : Nat) :
    mergedOf ⟨neutralizeQuery env.active, neutralizeQuery env.archivedPublic,
      neutralizeQuery env.archivedPrivate⟩ cid = mergedOf env cid := by
  simp only [mergedOf, exceptToEmpty_neutralizeQuery]

theorem fetchThreadsRemote_neutralize (env : RemoteEnv) (fs : FSEnv)
    (now cid : Nat) (uc : Bool) (n : Nat) :
    fetchThreadsRemote ⟨neutralizeQuery env.active,
        neutralizeQuery env.archivedPublic,
        neutralizeQuery env.archivedPrivate⟩ fs now cid uc n =
      fetchThreadsRemote env fs now cid uc n := by
  simp only [fetchThreadsRemote, exceptToEmpty_neutralizeQuery]

/-! ## The catch-up session never touches the cache -/

theorem foldlM_selectChannelStep_no_cache (channels : List Nat)
    (envOf : Nat → RemoteEnv) (now : Nat) (acc : Effects) :
    channels.foldlM (selectChannelStep false envOf now) acc =
      .ok ⟨acc.fs, acc.remoteQueries + 3 * channels.length, acc.cacheLoads⟩ := by
  induction channels generalizing acc with
  | nil => rfl
  | cons hd tl ih =>
    rw [List.foldlM_cons]
    have hstep : selectChannelStep false envOf now acc hd =
        .ok ⟨acc.fs, acc.remoteQueries + 3, acc.cacheLoads⟩ := by
      simp [selectChannelStep, fetch_threads_no_cache]
    rw [hstep]
    have hbind : (Except.ok (⟨acc.fs, acc.remoteQueries + 3, acc.cacheLoads⟩ : Effects)
        >>= fun acc' => tl.foldlM (selectChannelStep false envOf now) acc') =
        tl.foldlM (selectChannelStep false envOf now)
          ⟨acc.fs, acc.remoteQueries + 3, acc.cacheLoads⟩ := rfl
    rw [hbind, ih]
    have harith : acc.remoteQueries + 3 + 3 * tl.length
        = acc.remoteQueries + 3 * (tl.length + 1) := by ring
    simp only [List.length_cons]
    rw [harith]

theorem selectChannelEffects_no_cache (channels : List Nat)
    (envOf : Nat → RemoteEnv) (fs : FSEnv) (now : Nat) :
    selectChannelEffects channels false envOf fs now =
      .ok ⟨fs, 3 * channels.length, 0⟩ := by
  unfold selectChannelEffects
  rw [foldlM_selectChannelStep_no_cache]
  simp

/-- Claim C1 as stated is false: with thread id 7 present in both the
active query (`tActive`) and the archived-public query (`tArchived`),
the aggregated output holds exactly one record with id 7 — but it is the
archived-public one, not the active one: the Python dict assignment
`unique_threads[str(t.id)] = t` lets the later (lower-priority) record
overwrite the earlier. -/
theorem c1_counterexample :
    fetch_threads envDup fsEmpty 0 1 false Option.none =
      .ok ⟨[.remote tArchived], fsEmpty, 3, 0⟩ ∧
    tArchived.name ≠ tActive.name := by
  exact ⟨rfl, by decide⟩

/-- Claim C1 (amended): when a thread identifier `X` appears in the
results of two or more of the three source queries, the aggregated
output of `fetch_threads` contains exactly one record with id `X`, and
that record is the one from the *last*-encountered query
(archived-private over archived-public over active:
last-seen-wins deduplication). -/
theorem c1_last_seen_wins (aL pL vL : List Thread) (fs : FSEnv)
    (now cid : Nat) (mad : Option Nat) (X : String) :
    fetch_threads ⟨.ok aL, .ok pL, .ok vL⟩ fs now cid false mad =
      .ok ⟨(dedupById (mergedOf ⟨.ok aL, .ok pL, .ok vL⟩ cid)).map .remote, fs, 3, 0⟩ ∧
    (dedupById (mergedOf ⟨.ok aL, .ok pL, .ok vL⟩ cid)).filter
        (fun t => decide (toString t.id = X)) =
      ((mergedOf ⟨.ok aL, .ok pL, .ok vL⟩ cid).filter
        (fun t => decide (toString t.id = X))).getLast?.toList ∧
    ((mergedOf ⟨.ok aL, .ok pL, .ok vL⟩ cid).filter
        (fun t => decide (toString t.id = X)) ≠ [] →
      ((dedupById (mergedOf ⟨.ok aL, .ok pL, .ok vL⟩ cid)).filter
        (fun t => decide (toString t.id = X))).length = 1) := by
  refine ⟨fetch_threads_no_cache _ _ _ _ _, dedupById_filter _ _, ?_⟩
  intro hne
  rw [dedupById_filter]
  have hsome : ((mergedOf ⟨.ok aL, .ok pL, .ok vL⟩ cid).filter
      (fun t => decide (toString t.id = X))).getLast?.isSome := by
    rw [List.getLast?_isSome]
    exact hne
  obtain ⟨x, hx⟩ := Option.isSome_iff_exists.mp hsome
  rw [hx]
  rfl

/-- Claim C2 is contradicted by the code: the age filter of
`fetch_threads` is commented out, so with `max_age_days = 1` and the
clock at 2000000 s, a thread archived at 100 s (far older than one day =
86400 s) is still returned; moreover the `max_age_days` argument has no
effect on the result at all. The command documentation
(`--max-age`: "Only show threads updated within this many days")
contradicts this behaviour, so the code, not the claim, is wrong. -/
theorem c2_age_filter_never_applied :
    (fetch_threads envOld fsEmpty 2000000 1 false (some 1) =
      .ok ⟨[.remote tOld], fsEmpty, 3, 0⟩) ∧
    tOld.archive_timestamp = some 100 ∧
    100 + 1 * 86400 < 2000000 ∧
    (∀ (env : RemoteEnv) (fs : FSEnv) (now cid : Nat) (uc : Bool)
      (mad mad2 : Option Nat),
      fetch_threads env fs now cid uc mad = fetch_threads env fs now cid uc mad2) := by
  refine ⟨rfl, rfl, by omega, ?_⟩
  intro env fs now cid uc mad mad2
  rfl

/-- Claim C3: the `run()` coroutine of `thread_catchup` unconditionally
reassigns `use_cache = False` before channel selection, so — whatever the
`--use-cache` flag and the `use_threads_cache` setting say — the whole
catch-up flow performs zero cache reads, leaves the filesystem (and hence
every cache file) unchanged, and never fails with a cache error. -/
theorem c3_catchup_never_touches_cache (cli_use_cache env_use_threads_cache : Bool)
    (mad : Option Nat) (channels : List Nat) (pick : Nat)
    (envOf : Nat → RemoteEnv) (fs : FSEnv) (now : Nat) :
    ∃ o, thread_catchup_run cli_use_cache env_use_threads_cache mad channels
        pick envOf fs now = .ok o ∧
      o.fs = fs ∧ o.cacheLoads = 0 := by
  by_cases hch : channels.isEmpty
  · refine ⟨⟨[], fs, 0, 0⟩, ?_, rfl, rfl⟩
    simp [thread_catchup_run, hch]
  · refine ⟨⟨(dedupById (mergedOf (envOf (channels.getD pick 0))
        (channels.getD pick 0))).map .remote, fs, 3 * channels.length + 3, 0⟩,
      ?_, rfl, rfl⟩
    simp only [thread_catchup_run, hch, if_false, Bool.false_eq_true,
      selectChannelEffects_no_cache, fetch_threads_no_cache]

/-- Claim C5: `_load_threads_from_cache` reports a miss (the empty list)
whenever the entry is absent, whenever its age exceeds 3600 seconds
regardless of content, and whenever its content is corrupt; its return
type is a plain list, so no error is ever propagated. -/
theorem c5_load_reports_miss (fs : FSEnv) (now cid : Nat)
    (h : fs.find cid = Option.none ∨
      (∃ f, fs.find cid = some f ∧ now - f.mtime > 3600) ∨
      (∃ f, fs.find cid = some f ∧ f.data = CacheData.corrupt)) :
    loadThreadsFromCache fs now cid = [] := by
  rcases h with h | ⟨f, hf, hst⟩ | ⟨f, hf, hcor⟩
  · unfold loadThreadsFromCache
    rw [h]
  · unfold loadThreadsFromCache
    rw [hf]
    show (if now - f.mtime > 3600 then []
      else match f.data with
        | CacheData.corrupt => []
        | CacheData.good records => records.map deserThread) = []
    rw [if_pos hst]
  · unfold loadThreadsFromCache
    rw [hf]
    show (if now - f.mtime > 3600 then []
      else match f.data with
        | CacheData.corrupt => []
        | CacheData.good records => records.map deserThread) = []
    rw [hcor]
    split <;> rfl

/-- Witness for C5: the spec's own scenario — an entry written at time 0
read at time 3601 with perfectly valid content is a miss. -/
theorem c5_load_reports_miss_witness :
    (∃ f, FSEnv.find ⟨[(1, CacheFile.mk 0 (CacheData.good []))], false, false⟩ 1 =
        some f ∧ 3601 - f.mtime > 3600) ∧
    loadThreadsFromCache ⟨[(1, CacheFile.mk 0 (CacheData.good []))], false, false⟩ 3601 1 = [] := by
  refine ⟨⟨CacheFile.mk 0 (CacheData.good []), rfl, by decide⟩, ?_⟩
  exact c5_load_reports_miss _ 3601 1
    (Or.inr (Or.inl ⟨CacheFile.mk 0 (CacheData.good []), rfl, by decide⟩))

/-- Claim C7 as stated is false: `_save_threads_to_cache` does not
persist `last_activity`, `last_message_id` or `auto_archive_duration` —
the serialized record for a thread carrying `last_message_id = 5` and
`auto_archive_duration = 60` has no such keys at all. -/
theorem c7_counterexample :
    tFull.last_message_id = some 5 ∧
    tFull.auto_archive_duration = some 60 ∧
    jsonGet (threadToJson tFull) "last_message_id" = Option.none ∧
    jsonGet (threadToJson tFull) "auto_archive_duration" = Option.none ∧
    jsonGet (threadToJson tFull) "last_activity" = Option.none := by
  exact ⟨rfl, rfl, rfl, rfl, rfl⟩

/-- Claim C7 (amended): the persisted record for each thread contains
exactly the six attributes `id`, `parent_id`, `name`, `archived`,
`locked`, `archive_timestamp` — the nullable `archive_timestamp` is
rendered as an explicit `null` marker when absent, never omitted —
while `last_activity`, `last_message_id` and `auto_archive_duration`
are not persisted. -/
theorem c7_saved_fields (t : Thread) :
    (threadToJson t).map (fun p => p.1) =
      ["id", "parent_id", "name", "archived", "locked", "archive_timestamp"] ∧
    jsonGet (threadToJson t) "archive_timestamp" =
      some (match t.archive_timestamp with
        | some ts => JVal.str (isoformat ts)
        | Option.none => JVal.null) ∧
    (t.archive_timestamp = Option.none →
      jsonGet (threadToJson t) "archive_timestamp" = some JVal.null) ∧
    jsonGet (threadToJson t) "last_message_id" = Option.none ∧
    jsonGet (threadToJson t) "auto_archive_duration" = Option.none ∧
    jsonGet (threadToJson t) "last_activity" = Option.none := by
  obtain ⟨tid, pid, nm, arch, lock, ats, lmi, aad⟩ := t
  cases ats with
  | none => exact ⟨rfl, rfl, fun _ => rfl, rfl, rfl, rfl⟩
  | some ts => exact ⟨rfl, rfl, fun h => Option.noConfusion h, rfl, rfl, rfl⟩

/-- Claim C8 as stated is false: when the cache directory cannot be
created (`os.makedirs` raises — it sits before the `try` block),
`_save_threads_to_cache` propagates the exception instead of returning
normally. -/
theorem c8_counterexample :
    saveThreadsToCache ⟨[], true, false⟩ 0 1 [] = .error () := rfl

/-- Claim C8 (amended): provided the cache directory can be created,
`Save` never raises — in particular a failure to write the cache file is
logged and swallowed, leaving the filesystem unchanged. -/
theorem c8_save_swallows_write_failures (fs : FSEnv) (now cid : Nat)
    (ts : List Thread) (h : fs.mkdirFails = false) :
    (fs.writeFails = true → saveThreadsToCache fs now cid ts = .ok fs) ∧
    ∃ fs', saveThreadsToCache fs now cid ts = .ok fs' := by
  constructor
  · intro hw
    simp [saveThreadsToCache, h, hw]
  · exact saveThreadsToCache_ok fs now cid ts h

/-- Witness for the amended C8 at a filesystem whose file writes fail but
whose directory creation succeeds. -/
theorem c8_save_swallows_write_failures_witness :
    (FSEnv.mk [] false true).mkdirFails = false ∧
    ((FSEnv.mk [] false true).writeFails = true →
      saveThreadsToCache (FSEnv.mk [] false true) 0 1 [] = .ok (FSEnv.mk [] false true)) ∧
    (∃ fs', saveThreadsToCache (FSEnv.mk [] false true) 0 1 [] = .ok fs') := by
  exact ⟨rfl, (c8_save_swallows_write_failures (FSEnv.mk [] false true) 0 1 [] rfl).1,
    (c8_save_swallows_write_failures (FSEnv.mk [] false true) 0 1 [] rfl).2⟩

/-- Claim C9: with an empty thread sequence, `select_thread` shows no
prompt and resolves immediately to the "main channel" sentinel (`None`),
so the retrieval target is the channel itself — for every possible user
pick and channel. -/
theorem c9_empty_threads_resolve_to_main_channel (pick cid : Nat) :
    select_thread [] pick = (Option.none, false) ∧
    resolve_target (select_thread [] pick).1 cid = Target.channel cid := by
  exact ⟨rfl, rfl⟩

/-- Claim C10: for every fetched message sequence (newest first as the
remote source returns it), prompt-file mode emits the message lines in
reversed (oldest-first) order, while display mode emits them in source
order without reversal. -/
theorem c10_prompt_reverses_display_preserves (msgs : List Message) :
    display_message_lines msgs = msgs.map format_message ∧
    prompt_message_texts msgs = (display_message_lines msgs).reverse := by
  refine ⟨rfl, ?_⟩
  unfold prompt_message_texts display_message_lines
  exact List.map_reverse _ _

/-- Claim C6 as stated is false on one path: in an execution without a
cache hit in which the archived-private query fails, the aggregation call
can still abort — not because of the query failure, which is duly
swallowed, but because the subsequent cache write's `os.makedirs` raises
outside any handler (the C8 slip). -/
theorem c6_counterexample :
    envPrivFails.archivedPrivate = .error () ∧
    loadThreadsFromCache fsNoMkdir 0 1 = [] ∧
    fetch_threads envPrivFails fsNoMkdir 0 1 true Option.none = .error () := by
  exact ⟨rfl, rfl, rfl⟩

/-- Claim C6 (amended): in every execution without a cache hit, each of
the three remote queries is independently fault-tolerant — any failing
query contributes an empty result while the others still contribute, and
the call is unchanged if every failing query is replaced by a successful
empty one — and, provided the cache-write step does not itself raise
(caching disabled, or the cache directory creatable), the call returns a
sequence after executing all three queries. -/
theorem c6_query_fault_tolerance (env : RemoteEnv) (fs : FSEnv)
    (now cid : Nat) (mad : Option Nat) (uc : Bool)
    (hsave : uc = true → fs.mkdirFails = false)
    (hmiss : uc = true → loadThreadsFromCache fs now cid = []) :
    (∃ o, fetch_threads env fs now cid uc mad = .ok o ∧
      o.remoteQueries = 3 ∧
      o.threads = (dedupById (mergedOf env cid)).map .remote) ∧
    fetch_threads env fs now cid uc mad =
      fetch_threads ⟨neutralizeQuery env.active, neutralizeQuery env.archivedPublic,
        neutralizeQuery env.archivedPrivate⟩ fs now cid uc mad := by
  cases uc with
  | false =>
    constructor
    · exact ⟨⟨(dedupById (mergedOf env cid)).map .remote, fs, 3, 0⟩,
        fetch_threads_no_cache env fs now cid mad, rfl, rfl⟩
    · rw [fetch_threads_no_cache, fetch_threads_no_cache, mergedOf_neutralize]
  | true =>
    have hmk := hsave rfl
    have hm := hmiss rfl
    constructor
    · rw [fetch_threads_cache_miss env fs now cid mad hm, fetchThreadsRemote_eq_save]
      obtain ⟨fs2, hfs2⟩ := saveThreadsToCache_ok fs now cid
        (dedupById (mergedOf env cid)) hmk
      rw [hfs2]
      exact ⟨⟨(dedupById (mergedOf env cid)).map .remote, fs2, 3, 1⟩, rfl, rfl, rfl⟩
    · rw [fetch_threads_cache_miss env fs now cid mad hm,
        fetch_threads_cache_miss _ fs now cid mad hm,
        fetchThreadsRemote_neutralize]

/-- Witness for the amended C6: active query failing, empty healthy
filesystem, caching on. -/
theorem c6_query_fault_tolerance_witness :
    (∃ o, fetch_threads (RemoteEnv.mk (.error ()) (.ok []) (.ok [])) fsEmpty 0 1
        true Option.none = .ok o ∧
      o.remoteQueries = 3 ∧
      o.threads = (dedupById (mergedOf (RemoteEnv.mk (.error ()) (.ok []) (.ok [])) 1)).map .remote) ∧
    fetch_threads (RemoteEnv.mk (.error ()) (.ok []) (.ok [])) fsEmpty 0 1
        true Option.none =
      fetch_threads ⟨neutralizeQuery (Except.error ()), neutralizeQuery (Except.ok []),
        neutralizeQuery (Except.ok [])⟩ fsEmpty 0 1 true Option.none := by
  exact c6_query_fault_tolerance (RemoteEnv.mk (.error ()) (.ok []) (.ok []))
    fsEmpty 0 1 Option.none true (fun _ => rfl) (fun _ => rfl)

/-- Claim C4 as stated is false twice over. First, after a first call
whose aggregation is empty, the cached empty list is treated as a miss
(`if threads:` is falsy), so the second call performs all three remote
queries again, not zero. Second, even when the first call returns a
non-empty sequence, the second call's records are cache deserializations
(string ids, six fields), not identical to the first call's records. -/
theorem c4_counterexample :
    (fetch_threads env0 fsEmpty 1000 1 true Option.none =
        .ok ⟨[], c4fs1, 3, 1⟩ ∧
      fetch_threads env0 c4fs1 1000 1 true Option.none =
        .ok ⟨[], c4fs1, 3, 1⟩) ∧
    (fetch_threads envB fsEmpty 1000 1 true Option.none =
        .ok ⟨[.remote tB], c4fsB, 3, 1⟩ ∧
      fetch_threads envB c4fsB 1000 1 true Option.none =
        .ok ⟨[.cached (loadedOf tB)], c4fsB, 0, 1⟩ ∧
      [FetchedThread.cached (loadedOf tB)] ≠ [FetchedThread.remote tB]) := by
  exact ⟨⟨rfl, rfl⟩, ⟨rfl, rfl, by decide⟩⟩

/-- Claim C4 (amended): after a first `fetch_threads` call with
`use_cache` on a cache miss whose write succeeds, a second call within
the 3600-second freshness window — provided the first call's result is
non-empty — performs zero remote queries, leaves the filesystem
untouched, and returns exactly the cache round-trip image of the first
call's sequence (ids and parent ids as strings; name, archived, locked
and archive timestamp preserved; the remaining attributes dropped). -/
theorem c4_second_call_uses_cache (env env2 : RemoteEnv) (fs : FSEnv)
    (now1 now2 cid : Nat) (mad mad2 : Option Nat)
    (hmiss : loadThreadsFromCache fs now1 cid = [])
    (hmk : fs.mkdirFails = false) (hwr : fs.writeFails = false)
    (hfresh : now2 - now1 ≤ 3600) :
    ∃ o1 o2, fetch_threads env fs now1 cid true mad = .ok o1 ∧
      fetch_threads env2 o1.fs now2 cid true mad2 = .ok o2 ∧
      (o1.threads ≠ [] →
        o2.remoteQueries = 0 ∧ o2.fs = o1.fs ∧
        o2.threads = o1.threads.map cachedImage) := by
  have hsave := saveThreadsToCache_eq fs now1 cid
    (dedupById (mergedOf env cid)) hmk hwr
  have h1 : fetch_threads env fs now1 cid true mad =
      .ok ⟨(dedupById (mergedOf env cid)).map .remote,
        { fs with cache := pyDictSet fs.cache cid (CacheFile.mk now1 (CacheData.good ((dedupById (mergedOf env cid)).map threadToJson))) },
        3, 1⟩ := by
    rw [fetch_threads_cache_miss env fs now1 cid mad hmiss,
      fetchThreadsRemote_eq_save, hsave]
  have hload : loadThreadsFromCache
      { fs with cache := pyDictSet fs.cache cid (CacheFile.mk now1 (CacheData.good ((dedupById (mergedOf env cid)).map threadToJson))) }
      now2 cid = (dedupById (mergedOf env cid)).map loadedOf :=
    loadThreadsFromCache_after_save fs _ now1 now2 cid
      (dedupById (mergedOf env cid)) hmk hwr hsave hfresh
  by_cases hRnil : dedupById (mergedOf env cid) = []
  · have hload0 : loadThreadsFromCache
        { fs with cache := pyDictSet fs.cache cid (CacheFile.mk now1 (CacheData.good ((dedupById (mergedOf env cid)).map threadToJson))) }
        now2 cid = [] := by
      rw [hload, hRnil]
      rfl
    have hmk1 : ({ fs with cache := pyDictSet fs.cache cid (CacheFile.mk now1 (CacheData.good ((dedupById (mergedOf env cid)).map threadToJson))) } : FSEnv).mkdirFails = false := hmk
    obtain ⟨fs2, hfs2⟩ := saveThreadsToCache_ok
      { fs with cache := pyDictSet fs.cache cid (CacheFile.mk now1 (CacheData.good ((dedupById (mergedOf env cid)).map threadToJson))) }
      now2 cid (dedupById (mergedOf env2 cid)) hmk1
    refine ⟨_, ⟨(dedupById (mergedOf env2 cid)).map .remote, fs2, 3, 1⟩, h1, ?_, ?_⟩
    · rw [fetch_threads_cache_miss env2 _ now2 cid mad2 hload0,
        fetchThreadsRemote_eq_save, hfs2]
    · intro hne
      rw [hRnil] at hne
      exact absurd rfl hne
  · have hne' : (dedupById (mergedOf env cid)).map loadedOf ≠ [] := by
      simp [hRnil]
    have h2 : fetch_threads env2
        { fs with cache := pyDictSet fs.cache cid (CacheFile.mk now1 (CacheData.good ((dedupById (mergedOf env cid)).map threadToJson))) }
        now2 cid true mad2 =
        .ok ⟨((dedupById (mergedOf env cid)).map loadedOf).map .cached,
          { fs with cache := pyDictSet fs.cache cid (CacheFile.mk now1 (CacheData.good ((dedupById (mergedOf env cid)).map threadToJson))) },
          0, 1⟩ :=
      fetch_threads_cache_hit env2 _ now2 cid mad2 _ hload hne'
    refine ⟨_, _, h1, h2, ?_⟩
    intro _
    refine ⟨rfl, rfl, ?_⟩
    show ((dedupById (mergedOf env cid)).map loadedOf).map .cached =
      ((dedupById (mergedOf env cid)).map .remote).map cachedImage
    rw [List.map_map, List.map_map]
    exact List.map_congr_left (fun t _ => rfl)

/-- Witness for the amended C4: one active thread, empty healthy
filesystem, both calls at time 1000. -/
theorem c4_second_call_uses_cache_witness :
    loadThreadsFromCache fsEmpty 1000 1 = [] ∧
    fsEmpty.mkdirFails = false ∧
    fsEmpty.writeFails = false ∧
    1000 - 1000 ≤ 3600 ∧
    (∃ o1 o2, fetch_threads envB fsEmpty 1000 1 true Option.none = .ok o1 ∧
      fetch_threads envB o1.fs 1000 1 true Option.none = .ok o2 ∧
      (o1.threads ≠ [] →
        o2.remoteQueries = 0 ∧ o2.fs = o1.fs ∧
        o2.threads = o1.threads.map cachedImage)) := by
  exact ⟨rfl, rfl, rfl, by decide,
    c4_second_call_uses_cache envB envB fsEmpty 1000 1000 1 Option.none Option.none
      rfl rfl rfl (by decide)⟩

end DiscordCatchup

